import Mathlib

/-!
# QRyptoRAG (qr-video-rag): verification of the spec against the source

Shallow embedding of the TypeScript sources of the `qr-video-rag` package:

* `src/qr-video-rag/src/encoder.ts` — `QRVideoStoreEncoder` (constructor,
  `chunkText`, `buildVideo`/`encodeVideo`, `addDocument`);
* `src/qr-video-rag/src/adapters/embedders.ts` (database adapter part) —
  `createInMemoryAdapter` (`upsert`, `search`) and `cosineSimilarity`;
* the retriever file (`QRVideoStoreRetriever`: constructor, `search`,
  `extractFrameAsBuffer`, `decodeQrCodeFromBuffer`, `getFrameByNumber`,
  `addToCache`).

Texts are modelled as `List Char` (one element per UTF-16 code unit of the
JS string; all concrete inputs used below are ASCII, where the two coincide).
JS numbers used as chunk sizes/offsets are modelled as `Nat`; the only place
a negative intermediate could appear in the source is the chunker stride
`chunkSize - chunkOverlap`, which in JS is `≤ 0` exactly when the `Nat`
truncated difference is `0`, and in both cases the loop index never advances,
so the `Nat` model has the same termination behaviour as the source.
Possibly-diverging loops are modelled with explicit fuel: `none` means the
fuel ran out, i.e. the source loop has not terminated within that many
iterations (and, as proved below, for a non-positive stride it terminates
for no amount of fuel at all). Stateful code (filesystem effects of
`buildVideo`, the retriever's frame cache and its calls into ffmpeg/jsQR)
is modelled by explicit state passing over a small environment record, with
an event trace recording the order of external effects.
-/

namespace QRVideoRAG

/-! ## Chunker (`QRVideoStoreEncoder.chunkText`, encoder.ts lines 82-105) -/

/-- A text chunk, as pushed by `chunkText`:
`chunks.push({ text: chunkText, index: chunks.length,
               metadata: { startPosition: i, endPosition: end } })`. -/
structure Chunk where
  text : List Char
  index : Nat
  startPosition : Nat
  endPosition : Nat
deriving DecidableEq, Repr

/-- The loop body of `chunkText`, with explicit fuel.

```
while (i < text.length) {
  const end = Math.min(i + this.config.chunkSize, text.length);
  const chunkText = text.substring(i, end);
  chunks.push({ text: chunkText, index: chunks.length, metadata: {...} });
  i += this.config.chunkSize - this.config.chunkOverlap;
}
```

`i` is the loop index, `ord` the number of chunks pushed so far
(`chunks.length`).  `text.substring(i, end)` with `0 ≤ i ≤ end ≤ length`
is `(text.drop i).take (end - i)`.  `none` means the fuel was exhausted
with the loop still running. -/
def chunkTextAux (chunkSize chunkOverlap : Nat) (text : List Char) :
    Nat → Nat → Nat → Option (List Chunk)
  | 0, i, _ =>
    if i < text.length then none else some []
  | fuel + 1, i, ord =>
    if i < text.length then
      let e := min (i + chunkSize) text.length
      (chunkTextAux chunkSize chunkOverlap text fuel
          (i + (chunkSize - chunkOverlap)) (ord + 1)).map
        (fun rest => ⟨(text.drop i).take (e - i), ord, i, e⟩ :: rest)
    else some []

/-- `QRVideoStoreEncoder.chunkText`.  The fuel `text.length + 1` is enough
for every terminating run of the source loop (the index advances by at
least 1 per iteration when the stride is positive), so `none` exactly
signals the non-terminating configurations. -/
def chunkText (chunkSize chunkOverlap : Nat) (text : List Char) :
    Option (List Chunk) :=
  chunkTextAux chunkSize chunkOverlap text (text.length + 1) 0 0

/-- The configuration options accepted by the `QRVideoStoreEncoder`
constructor (`QRVideoStoreConfig`, all fields optional). -/
structure QRVideoStoreConfigInput where
  chunkSize : Option Nat
  chunkOverlap : Option Nat
  videoFps : Option Nat
  verbose : Option Bool
deriving DecidableEq, Repr

/-- The resolved configuration stored on the encoder. -/
structure EncoderConfig where
  chunkSize : Nat
  chunkOverlap : Nat
  videoFps : Nat
  verbose : Bool
deriving DecidableEq, Repr

/-- The `QRVideoStoreEncoder` constructor (encoder.ts lines 53-68).  It only
fills in defaults (`chunkSize: config.chunkSize ?? 500`, `chunkOverlap:
config.chunkOverlap ?? 50`, `videoFps: config.videoFps ?? 1`, `verbose:
config.verbose ?? false`); there is no validation of any kind, so
construction always completes, whatever the options. -/
def mkEncoderConfig (c : QRVideoStoreConfigInput) : EncoderConfig where
  chunkSize := c.chunkSize.getD 500
  chunkOverlap := c.chunkOverlap.getD 50
  videoFps := c.videoFps.getD 1
  verbose := c.verbose.getD false

/-- Number of window start positions of the sliding window of the
specification: the starts are `0, s, 2s, …` and the window at `j·s` exists
iff `j·s < len`, so there are `⌈len / s⌉` of them. -/
def numChunks (stride len : Nat) : Nat :=
  (len + stride - 1) / stride

/-- The sliding window of the specification, §4.1: "Starting at position 0,
emit the substring `[i, min(i + chunk_size, len(text)))` with index equal to
its emission ordinal, advance `i` by the stride, and stop when
`i ≥ len(text)`."  Written in closed form: the `j`-th emitted chunk starts
at `j · stride`. -/
def chunkTextSpec (chunkSize chunkOverlap : Nat) (text : List Char) :
    List Chunk :=
  let stride := chunkSize - chunkOverlap
  (List.range (numChunks stride text.length)).map (fun j =>
    let i := j * stride
    let e := min (i + chunkSize) text.length
    ⟨(text.drop i).take (e - i), j, i, e⟩)

/-- Reassembly as worded by the claim: concatenate the chunk texts in order,
"removing the last `chunk_overlap` characters from every chunk except the
last". -/
def reassembleDropOverlap (chunkOverlap : Nat) : List (List Char) → List Char
  | [] => []
  | [c] => c
  | c :: rest => c.take (c.length - chunkOverlap) ++
      reassembleDropOverlap chunkOverlap rest

/-- Reassembly that actually inverts the chunker: keep the first
`stride = chunk_size − chunk_overlap` characters of every chunk except the
last (for a full-length chunk this is the same as removing the last
`chunk_overlap` characters). -/
def reassembleTake (stride : Nat) : List (List Char) → List Char
  | [] => []
  | [c] => c
  | c :: rest => c.take stride ++ reassembleTake stride rest

/-! ## Vector index: `createInMemoryAdapter` and `cosineSimilarity`
(adapters/embedders.ts database-adapter part, lines 436-508) -/

/-- `QRVideoStoreIndexEntry` (types.ts).  `metadata` is an untyped JS record
used only pass-through by the code under verification and is omitted. -/
structure IndexEntry where
  chunkText : List Char
  embedding : List Float
  frameNumber : Nat
  documentId : String
  similarity : Option Float

/-- `cosineSimilarity(a, b)` (embedders.ts lines 485-508).  Throws
`'Vectors must have same length'` when the lengths differ; otherwise folds
the products/squares (the JS index loop over `0 ≤ i < a.length`, expressed
over `a.zip b`, which visits exactly the same pairs since the lengths are
equal on this branch), and returns `0` when either magnitude is zero. -/
def cosineSimilarity (a b : List Float) : Except String Float :=
  if a.length ≠ b.length then Except.error "Vectors must have same length"
  else
    let dotProduct := ((a.zip b).map (fun p => p.1 * p.2)).foldl (· + ·) 0
    let magA := Float.sqrt ((a.map (fun x => x * x)).foldl (· + ·) 0)
    let magB := Float.sqrt ((b.map (fun x => x * x)).foldl (· + ·) 0)
    if magA == 0 || magB == 0 then Except.ok 0
    else Except.ok (dotProduct / (magA * magB))

/-- The `store.map(entry => ({ ...entry, similarity: cosineSimilarity(...) }))`
step of the in-memory adapter's `search`: JS `Array.prototype.map` evaluates
left to right and the first thrown exception propagates out of the map. -/
def scoreAll (embedding : List Float) : List IndexEntry →
    Except String (List IndexEntry)
  | [] => Except.ok []
  | e :: rest =>
    match cosineSimilarity embedding e.embedding with
    | Except.error msg => Except.error msg
    | Except.ok s =>
      match scoreAll embedding rest with
      | Except.error msg => Except.error msg
      | Except.ok others => Except.ok ({ e with similarity := some s } :: others)

/-- The comparator `(b.similarity || 0) - (a.similarity || 0)` of the
in-memory adapter sorts by descending `similarity ?? 0`; modelled as a
stable insertion sort with that key. -/
def insertBySim (e : IndexEntry) : List IndexEntry → List IndexEntry
  | [] => [e]
  | x :: xs =>
    if x.similarity.getD 0 ≥ e.similarity.getD 0 then x :: insertBySim e xs
    else e :: x :: xs

/-- `results.sort((a, b) => (b.similarity || 0) - (a.similarity || 0))`. -/
def sortBySimilarityDesc : List IndexEntry → List IndexEntry
  | [] => []
  | e :: rest => insertBySim e (sortBySimilarityDesc rest)

/-- `createInMemoryAdapter(...).upsert(entries)`:
`store.push(...entries)` — plain append, no deduplication and no
validation of any kind (in particular no embedding-dimension check). -/
def imUpsert (store entries : List IndexEntry) : List IndexEntry :=
  store ++ entries

/-- `createInMemoryAdapter(...).search(embedding, limit)` (embedders.ts
lines 447-461): empty store short-circuits to `[]`; otherwise scores every
entry (propagating the `cosineSimilarity` throw), sorts by descending
similarity, and takes the first `limit`. -/
def imSearch (store : List IndexEntry) (embedding : List Float)
    (limit : Nat) : Except String (List IndexEntry) :=
  if store.length = 0 then Except.ok []
  else
    match scoreAll embedding store with
    | Except.error msg => Except.error msg
    | Except.ok results => Except.ok ((sortBySimilarityDesc results).take limit)

/-! ## `QRVideoStoreEncoder.addDocument` (encoder.ts lines 249-299) -/

/-- The index entry pushed by `addDocument` for one chunk:
`{ chunkText: chunk.text, embedding, frameNumber: chunk.index, documentId,
metadata: {...} }`.  The embedder is abstracted as a pure function from the
chunk text to its vector. -/
def mkIndexEntry (embed : List Char → List Float) (documentId : String)
    (c : Chunk) : IndexEntry where
  chunkText := c.text
  embedding := embed c.text
  frameNumber := c.index
  documentId := documentId
  similarity := none

/-- The database effect of a successful `addDocument(documentId, text, out)`:
chunk the text, build one index entry per chunk (frameNumber := chunk.index)
and upsert them all into the store.  `none` means the chunking loop did not
terminate (and hence nothing was upserted). -/
def addDocumentModel (chunkSize chunkOverlap : Nat)
    (embed : List Char → List Float) (documentId : String)
    (text : List Char) (store : List IndexEntry) :
    Option (List IndexEntry) :=
  (chunkText chunkSize chunkOverlap text).map (fun chunks =>
    imUpsert store (chunks.map (mkIndexEntry embed documentId)))

/-! ## `buildVideo` / `encodeVideo` filesystem model
(encoder.ts lines 143-221) -/

/-- The filesystem facts `buildVideo` manipulates: the per-encode scratch
directory (`temp_qr_frames_<timestamp>`), the number of `frame_%05d.png`
files written into it, the output directory, and whether a file exists at
`outputVideoPath`. -/
structure EncodeFS where
  tempDirExists : Bool
  framesWritten : Nat
  outputDirExists : Bool
  outputFileExists : Bool
deriving DecidableEq, Repr

/-- Outcome of the external ffmpeg invocation in `encodeVideo`:
whether it succeeds, its error message otherwise, and whether a partial
output file had already been written at `outputVideoPath` by the time it
failed. -/
structure FfmpegOutcome where
  success : Bool
  errMessage : String
  writesPartialOnFailure : Bool
deriving DecidableEq, Repr

/-- `encodeVideo` (encoder.ts lines 189-221): runs ffmpeg; on `end` it
resolves (the output file now exists), on `error` it rejects with
`new Error("FFmpeg error: " + err.message)`.  Nothing in the error path
touches the filesystem: whatever partial output ffmpeg produced stays. -/
def encodeVideo (env : FfmpegOutcome) (fs : EncodeFS) :
    Except String Unit × EncodeFS :=
  if env.success then
    (Except.ok (), { fs with outputFileExists := true })
  else
    (Except.error ("FFmpeg error: " ++ env.errMessage),
     { fs with outputFileExists := fs.outputFileExists ||
         env.writesPartialOnFailure })

/-- `buildVideo` (encoder.ts lines 143-184): create the scratch directory,
write the `nFrames` PNG frames, ensure the output directory exists, run
`encodeVideo`, and in the `finally` block remove the scratch directory
(`fs.promises.rm(tempDir, { recursive: true, force: true })`) on success
and failure alike.  The error of `encodeVideo` propagates to the caller. -/
def buildVideo (env : FfmpegOutcome) (nFrames : Nat) (fs : EncodeFS) :
    Except String Unit × EncodeFS :=
  let fs1 := { fs with tempDirExists := true }
  let fs2 := { fs1 with framesWritten := nFrames }
  let fs3 := { fs2 with outputDirExists := true }
  let (r, fs4) := encodeVideo env fs3
  (r, { fs4 with tempDirExists := false, framesWritten := 0 })

/-! ## Retriever (`QRVideoStoreRetriever`) -/

/-- The frame cache `frameCache : Map<string, string>`, modelled as an
association list in JS `Map` insertion order (keys unique: `set` on an
existing key overwrites in place and keeps its position, `set` on a new key
appends; `keys().next().value` is the head's key). -/
abbrev Cache := List (String × String)

/-- `frameCache.get(key)`. -/
def cacheGet (c : Cache) (k : String) : Option String :=
  (List.find? (fun p => p.1 == k) c).map (fun p => p.2)

/-- `frameCache.set(key, value)`: overwrite in place when `key` is present,
append otherwise. -/
def cacheSet (c : Cache) (k v : String) : Cache :=
  if (List.find? (fun p => p.1 == k) c).isSome then
    List.map (fun p => if p.1 == k then (k, v) else p) c
  else c ++ [(k, v)]

/-- `frameCache.size`. -/
def cacheSize (c : Cache) : Nat := List.length c

/-- `QRVideoStoreRetriever.addToCache` (retriever file, lines 389-399):

```
if (this.frameCache.size >= this.maxCacheSize) {
  const firstKey = this.frameCache.keys().next().value;
  if (firstKey) { this.frameCache.delete(firstKey); }
}
this.frameCache.set(key, value);
```

The deleted key is the first key in insertion order (`Map.delete` removes
the single entry with that key — the head, since keys are unique). -/
def addToCache (maxCacheSize : Nat) (c : Cache) (k v : String) : Cache :=
  let evicted :=
    if maxCacheSize ≤ cacheSize c then
      match c with
      | [] => c
      | p :: _ => List.eraseP (fun q => q.1 == p.1) c
    else c
  cacheSet evicted k v

/-- The retriever constructor's cache capacity:
`this.maxCacheSize = options?.maxCacheSize ?? 50` (lines 55-68). -/
def retrieverMaxCacheSize (optMaxCacheSize : Option Nat) : Nat :=
  optMaxCacheSize.getD 50

/-- JS truthiness of a `string | null | undefined` value: `null`,
`undefined` and the empty string are falsy.  This is the test used both on
the cache lookup (`if (!decodedText)`) and on the decode result. -/
def truthyOpt : Option String → Bool
  | none => false
  | some s => !(s == "")

/-- Externally visible effects performed by a retriever call, in order. -/
inductive RetEvent where
  | embedQuery
  | dbSearch
  | extractFrame (n : Nat)
  | decodeFrame (n : Nat)
deriving DecidableEq, Repr

/-- Environment of one retriever call: the video path and whether a file
exists there (`fs.existsSync`), the hits the vector database returns for
the embedded query, the outcome of ffmpeg frame extraction
(`extractFrameAsBuffer` resolves `null` on any ffmpeg/pipe error and on an
empty buffer, a buffer otherwise — buffers are abstract ids), the outcome
of `decodeQrCodeFromBuffer` on a buffer (`null` when jsQR finds no code or
Jimp throws; note `qrCode.data` may be the empty string), and the cache
capacity. -/
structure RetrieverEnv where
  videoPath : String
  videoExists : Bool
  hits : List IndexEntry
  extract : Nat → Option Nat
  decode : Nat → Option String
  maxCacheSize : Nat

/-- The cache key `` `${videoPath}:${chunk.frameNumber}` ``. -/
def cacheKey (env : RetrieverEnv) (frameNumber : Nat) : String :=
  env.videoPath ++ ":" ++ toString frameNumber

/-- A `SearchResult` as assembled by `search`:
`{ text: decodedText, similarity: chunk.similarity || 0,
frameNumber: chunk.frameNumber, documentId: chunk.documentId, ... }`. -/
structure SearchResult where
  text : String
  similarity : Float
  frameNumber : Nat
  documentId : String

/-- The result `search` pushes for a hit with decoded text `t`. -/
def mkResult (chunk : IndexEntry) (t : String) : SearchResult where
  text := t
  similarity := chunk.similarity.getD 0
  frameNumber := chunk.frameNumber
  documentId := chunk.documentId

/-- The per-hit loop of `QRVideoStoreRetriever.search` (lines 239-280),
threading the cache and recording effects:

* cache lookup — a truthy cached string is used directly;
* otherwise `extractFrameAsBuffer` runs: it first checks
  `fs.existsSync(videoPath)` and throws `Video file not found: <path>`
  when the file is missing (aborting the whole search); a `null` buffer
  (`continue`) skips the hit;
* otherwise `decodeQrCodeFromBuffer` runs; a falsy result (`null` or `""`,
  via `if (!decodedText) continue`) skips the hit without caching;
* a truthy decode is cached with `addToCache` and pushed.

Returns the search outcome, the final cache and the effect trace (the cache
and the trace are meaningful even when the outcome is an error, since in
the source they are instance state and already-performed effects). -/
def searchLoop (env : RetrieverEnv) :
    List IndexEntry → Cache →
    Except String (List SearchResult) × Cache × List RetEvent
  | [], cache => (Except.ok [], cache, [])
  | chunk :: rest, cache =>
    let key := cacheKey env chunk.frameNumber
    let cached := cacheGet cache key
    if truthyOpt cached then
      let res := searchLoop env rest cache
      (res.1.map (fun rs => mkResult chunk (cached.getD "") :: rs),
       res.2.1, res.2.2)
    else if env.videoExists = false then
      (Except.error ("Video file not found: " ++ env.videoPath), cache, [])
    else
      match env.extract chunk.frameNumber with
      | none =>
        let res := searchLoop env rest cache
        (res.1, res.2.1, RetEvent.extractFrame chunk.frameNumber :: res.2.2)
      | some buf =>
        let d := env.decode buf
        if truthyOpt d then
          let cache2 := addToCache env.maxCacheSize cache key (d.getD "")
          let res := searchLoop env rest cache2
          (res.1.map (fun rs => mkResult chunk (d.getD "") :: rs), res.2.1,
           RetEvent.extractFrame chunk.frameNumber ::
             RetEvent.decodeFrame chunk.frameNumber :: res.2.2)
        else
          let res := searchLoop env rest cache
          (res.1, res.2.1, RetEvent.extractFrame chunk.frameNumber ::
             RetEvent.decodeFrame chunk.frameNumber :: res.2.2)

/-- `QRVideoStoreRetriever.search(query, videoPath, matchCount)`
(lines 223-288): step 1 is `retrieveChunks`, which embeds the query and
searches the vector database — these two effects happen unconditionally
and first; step 2 is the per-hit loop above. -/
def searchModel (env : RetrieverEnv) (cache : Cache) :
    Except String (List SearchResult) × Cache × List RetEvent :=
  let (r, c, evs) := searchLoop env env.hits cache
  (r, c, RetEvent.embedQuery :: RetEvent.dbSearch :: evs)

/-- `QRVideoStoreRetriever.getFrameByNumber(videoPath, frameNumber)`
(lines 340-364): return a truthy cached string; otherwise extract
(`extractFrameAsBuffer`, which throws when the video file is missing) and
decode; a truthy decode is cached; the decode result — possibly `null` or
`""` — is returned as is. -/
def getFrameByNumber (env : RetrieverEnv) (cache : Cache) (n : Nat) :
    Except String (Option String) × Cache × List RetEvent :=
  let key := cacheKey env n
  let cached := cacheGet cache key
  if truthyOpt cached then
    (Except.ok cached, cache, [])
  else if env.videoExists = false then
    (Except.error ("Video file not found: " ++ env.videoPath), cache, [])
  else
    match env.extract n with
    | none => (Except.ok none, cache, [RetEvent.extractFrame n])
    | some buf =>
      let d := env.decode buf
      let cache2 :=
        if truthyOpt d then addToCache env.maxCacheSize cache key (d.getD "")
        else cache
      (Except.ok d, cache2,
       [RetEvent.extractFrame n, RetEvent.decodeFrame n])

/-! ## Chunker lemmas -/

/-- With a positive stride the loop consumes at least one index unit per
iteration, so `text.length - i` fuel always suffices. -/
lemma chunkTextAux_isSome (cs co : Nat) (text : List Char) (h : co < cs) :
    ∀ fuel i ord, text.length - i ≤ fuel →
      (chunkTextAux cs co text fuel i ord).isSome = true := by
  intro fuel
  induction fuel with
  | zero =>
    intro i ord hle
    have : ¬ i < text.length := by omega
    simp [chunkTextAux, this]
  | succ fuel ih =>
    intro i ord hle
    by_cases hlt : i < text.length
    · have hs : 1 ≤ cs - co := by omega
      have := ih (i + (cs - co)) (ord + 1) (by omega)
      simp [chunkTextAux, hlt, Option.isSome_map]
      exact this
    · simp [chunkTextAux, hlt]

/-- Inversion: the loop returns an empty chunk list only when it was
started at or past the end of the text. -/
lemma chunkTextAux_eq_nil (cs co : Nat) (text : List Char)
    (fuel i ord : Nat)
    (h : chunkTextAux cs co text fuel i ord = some []) :
    text.length ≤ i := by
  by_cases hlt : i < text.length
  · cases fuel with
    | zero => simp [chunkTextAux, hlt] at h
    | succ f => simp [chunkTextAux, hlt] at h
  · omega

/-- Inversion: the loop returns a non-empty chunk list only when it was
started strictly inside the text. -/
lemma chunkTextAux_eq_cons (cs co : Nat) (text : List Char)
    (fuel i ord : Nat) (c : Chunk) (l : List Chunk)
    (h : chunkTextAux cs co text fuel i ord = some (c :: l)) :
    i < text.length := by
  by_cases hlt : i < text.length
  · exact hlt
  · cases fuel with
    | zero => simp [chunkTextAux, hlt] at h
    | succ f => simp [chunkTextAux, hlt] at h

/-- The chunk indices are consecutive ordinals starting at the running
`chunks.length` counter. -/
lemma chunkTextAux_map_index (cs co : Nat) (text : List Char) :
    ∀ fuel i ord l, chunkTextAux cs co text fuel i ord = some l →
      l.map Chunk.index = List.range' ord l.length := by
  intro fuel
  induction fuel with
  | zero =>
    intro i ord l hl
    by_cases hlt : i < text.length
    · simp [chunkTextAux, hlt] at hl
    · simp [chunkTextAux, hlt] at hl
      subst hl
      simp
  | succ fuel ih =>
    intro i ord l hl
    by_cases hlt : i < text.length
    · simp [chunkTextAux, hlt] at hl
      obtain ⟨rest, hrest, hcons⟩ := hl
      have := ih _ _ _ hrest
      subst hcons
      simp [this, List.range'_succ]
    · simp [chunkTextAux, hlt] at hl
      subst hl
      simp

/-- `j < numChunks s len` exactly when the `j`-th window start lies inside
the text. -/
lemma lt_numChunks_iff (s len j : Nat) (hs : 1 ≤ s) :
    j < numChunks s len ↔ j * s < len := by
  unfold numChunks
  rw [show (j < (len + s - 1) / s ↔ j + 1 ≤ (len + s - 1) / s) from Iff.rfl,
    Nat.le_div_iff_mul_le hs, Nat.succ_mul]
  omega

/-- The loop, started at the `j`-th window position with enough fuel,
produces exactly the windows `j, j+1, …` of the specification's sliding
window. -/
lemma chunkTextAux_eq_spec (cs co : Nat) (text : List Char) (h : co < cs) :
    ∀ fuel j, text.length - j * (cs - co) ≤ fuel →
      chunkTextAux cs co text fuel (j * (cs - co)) j =
        some ((List.range' j (numChunks (cs - co) text.length - j)).map
          (fun k =>
            let i := k * (cs - co)
            let e := min (i + cs) text.length
            (⟨(text.drop i).take (e - i), k, i, e⟩ : Chunk))) := by
  have hs : 1 ≤ cs - co := by omega
  intro fuel
  induction fuel with
  | zero =>
    intro j hle
    have hge : ¬ j * (cs - co) < text.length := by omega
    have hn : numChunks (cs - co) text.length - j = 0 := by
      have := (lt_numChunks_iff (cs - co) text.length j hs).not.mpr hge
      omega
    simp [chunkTextAux, hge, hn]
  | succ fuel ih =>
    intro j hle
    by_cases hlt : j * (cs - co) < text.length
    · have hnext : j * (cs - co) + (cs - co) = (j + 1) * (cs - co) := by
        rw [Nat.succ_mul]
      have hfuel : text.length - (j + 1) * (cs - co) ≤ fuel := by
        rw [← hnext]; omega
      have hrec := ih (j + 1) hfuel
      have hn : numChunks (cs - co) text.length - j =
          (numChunks (cs - co) text.length - (j + 1)) + 1 := by
        have := (lt_numChunks_iff (cs - co) text.length j hs).mpr hlt
        omega
      simp only [chunkTextAux, hlt, if_pos, hnext, hrec, Option.map_some',
        hn, List.range'_succ, List.map_cons]
    · have hn : numChunks (cs - co) text.length - j = 0 := by
        have := (lt_numChunks_iff (cs - co) text.length j hs).not.mpr hlt
        omega
      simp [chunkTextAux, hlt, hn]

/-- `chunkText` terminates under `chunkOverlap < chunkSize` and computes
the specification's sliding window. -/
lemma chunkText_eq_spec (cs co : Nat) (text : List Char) (h : co < cs) :
    chunkText cs co text = some (chunkTextSpec cs co text) := by
  have := chunkTextAux_eq_spec cs co text h (text.length + 1) 0 (by omega)
  simp only [Nat.zero_mul] at this
  rw [chunkText, this]
  simp [chunkTextSpec, List.range_eq_range']

/-- Non-positive stride: the loop makes no progress and never terminates on
non-empty input, whatever the fuel. -/
lemma chunkTextAux_none_of_le (cs co : Nat) (text : List Char)
    (h : cs ≤ co) (hne : text ≠ []) :
    ∀ fuel ord, chunkTextAux cs co text fuel 0 ord = none := by
  have hpos : 0 < text.length := List.length_pos.mpr hne
  have hz : cs - co = 0 := by omega
  intro fuel
  induction fuel with
  | zero => intro ord; simp [chunkTextAux, hpos]
  | succ fuel ih =>
    intro ord
    simp [chunkTextAux, hpos, hz, ih (ord + 1)]

/-- Reassembly lemma: keeping the first `stride` characters of every chunk
but the last and concatenating recovers the suffix of the text from the
current loop position. -/
lemma chunkTextAux_reassemble (cs co : Nat) (text : List Char) (h : co < cs) :
    ∀ fuel i ord l, chunkTextAux cs co text fuel i ord = some l →
      reassembleTake (cs - co) (l.map Chunk.text) = text.drop i := by
  intro fuel
  induction fuel with
  | zero =>
    intro i ord l hl
    by_cases hlt : i < text.length
    · simp [chunkTextAux, hlt] at hl
    · simp [chunkTextAux, hlt] at hl
      subst hl
      have hd : text.drop i = [] := List.drop_eq_nil_of_le (by omega)
      simp [reassembleTake, hd]
  | succ fuel ih =>
    intro i ord l hl
    by_cases hlt : i < text.length
    · simp [chunkTextAux, hlt] at hl
      obtain ⟨rest, hrest, hcons⟩ := hl
      subst hcons
      cases rest with
      | nil =>
        -- the recursive call returned `[]`, so the next position is past
        -- the end of the text and this chunk reaches the end of the text
        have hend : text.length ≤ i + (cs - co) :=
          chunkTextAux_eq_nil cs co text fuel _ _ hrest
        have he : min (i + cs) text.length = text.length := by omega
        simp only [List.map_cons, List.map_nil, reassembleTake, he]
        rw [show text.length - i = (text.drop i).length by simp,
          List.take_length]
      | cons r rs =>
        -- the next position is still inside the text, so this chunk holds
        -- at least `stride` characters
        have hmid : i + (cs - co) < text.length :=
          chunkTextAux_eq_cons cs co text fuel _ _ _ _ hrest
        have hrec := ih _ _ _ hrest
        simp only [List.map_cons] at hrec
        have hmin : min (cs - co) (min (i + cs) text.length - i) = cs - co := by
          omega
        simp only [List.map_cons, reassembleTake]
        have hdd : List.drop (cs - co) (List.drop i text) =
            List.drop (i + (cs - co)) text := by
          rw [List.drop_drop]
        rw [hrec, List.take_take, hmin, ← hdd, List.take_append_drop]
    · simp [chunkTextAux, hlt] at hl
      subst hl
      have hd : text.drop i = [] := List.drop_eq_nil_of_le (by omega)
      simp [reassembleTake, hd]

/-! ## Claims C1-C4 -/

/-- C1: for every successful `addDocument` with non-empty text into an
index holding no prior entries for the document, the `frameNumber` values
of the entries upserted for that document are exactly `0, 1, …, n−1` (no
gaps, no duplicates), where `n` is the number of chunks `chunkText`
produces. -/
theorem c1_frame_index_bijection (cs co : Nat)
    (embed : List Char → List Float) (docId : String) (text : List Char)
    (store : List IndexEntry)
    (hco : co < cs) (_hne : text ≠ [])
    (hfresh : ∀ e ∈ store, e.documentId ≠ docId) :
    ∃ chunks store2,
      chunkText cs co text = some chunks ∧
      addDocumentModel cs co embed docId text store = some store2 ∧
      (store2.filter (fun e => e.documentId == docId)).map
          IndexEntry.frameNumber = List.range chunks.length := by
  have hsome := chunkTextAux_isSome cs co text hco (text.length + 1) 0 0
    (by omega)
  obtain ⟨chunks, hchunks⟩ := Option.isSome_iff_exists.mp hsome
  refine ⟨chunks, imUpsert store (chunks.map (mkIndexEntry embed docId)),
    hchunks, ?_, ?_⟩
  · simp [addDocumentModel, chunkText, hchunks]
  · have hstore : store.filter (fun e => e.documentId == docId) = [] := by
      rw [List.filter_eq_nil_iff]
      intro e he
      simpa using hfresh e he
    have hmine :
        (chunks.map (mkIndexEntry embed docId)).filter
          (fun e => e.documentId == docId) =
        chunks.map (mkIndexEntry embed docId) := by
      rw [List.filter_eq_self]
      intro e he
      simp only [List.mem_map] at he
      obtain ⟨c, _, hc⟩ := he
      simp [← hc, mkIndexEntry]
    rw [imUpsert, List.filter_append, hstore, hmine, List.nil_append,
      List.map_map]
    have hidx := chunkTextAux_map_index cs co text (text.length + 1) 0 0
      chunks hchunks
    simpa [Function.comp, mkIndexEntry, List.range_eq_range'] using hidx

/-- Witness for C1 at `chunk_size = 10`, `chunk_overlap = 2`, the 18-char
text of scenario S1, and an empty store. -/
theorem c1_frame_index_bijection_witness :
    ∃ chunks store2,
      chunkText 10 2 "ABCDEFGHIJKLMNOPQR".toList = some chunks ∧
      addDocumentModel 10 2 (fun _ => []) "doc"
          "ABCDEFGHIJKLMNOPQR".toList [] = some store2 ∧
      (store2.filter (fun e => e.documentId == "doc")).map
          IndexEntry.frameNumber = List.range chunks.length :=
  c1_frame_index_bijection 10 2 (fun _ => []) "doc"
    "ABCDEFGHIJKLMNOPQR".toList [] (by decide) (by decide) (by simp)

/-- Counterexample to C2: constructing an encoder with
`chunkOverlap = chunkSize = 10` does not fail — the constructor performs no
validation and yields an ordinary configuration — and under that
configuration `chunkText` on the non-empty text `"A"` fails to terminate
(the fuelled model exhausts its fuel). -/
theorem c2_counterexample :
    mkEncoderConfig ⟨some 10, some 10, none, none⟩ =
      { chunkSize := 10, chunkOverlap := 10, videoFps := 1,
        verbose := false } ∧
    chunkText 10 10 ['A'] = none := by
  exact ⟨rfl, rfl⟩

/-- C2 as amended: the constructor performs no validation, so `chunkText`
can run with `chunk_overlap ≥ chunk_size`; in that case the loop stride is
non-positive and `chunkText` fails to terminate on every non-empty text —
the loop body completes no number of iterations, i.e. the fuelled model
returns `none` for every fuel. -/
theorem c2_no_validation_nontermination (cs co : Nat) (text : List Char)
    (hco : cs ≤ co) (hne : text ≠ []) :
    chunkText cs co text = none ∧
    ∀ fuel ord, chunkTextAux cs co text fuel 0 ord = none := by
  refine ⟨?_, chunkTextAux_none_of_le cs co text hco hne⟩
  exact chunkTextAux_none_of_le cs co text hco hne (text.length + 1) 0

/-- Witness for the amended C2 at `chunk_size = chunk_overlap = 10` and
text `"A"`. -/
theorem c2_no_validation_nontermination_witness :
    chunkText 10 10 ['A'] = none ∧
    chunkTextAux 10 10 ['A'] 5 0 0 = none :=
  ⟨(c2_no_validation_nontermination 10 10 ['A'] (by decide) (by decide)).1,
   (c2_no_validation_nontermination 10 10 ['A'] (by decide) (by decide)).2
     5 0⟩

/-- C3: under `chunk_overlap < chunk_size`, `chunkText` terminates and is
exactly the specification's sliding window (same substrings, ordinal
indices, same offsets); in particular `chunk_size = 10`,
`chunk_overlap = 2` on the 18-character text `"ABCDEFGHIJKLMNOPQR"` yields
exactly `"ABCDEFGHIJ"`, `"IJKLMNOPQR"`, `"QR"` at indices 0, 1, 2. -/
theorem c3_sliding_window (cs co : Nat) (text : List Char) (hco : co < cs) :
    chunkText cs co text = some (chunkTextSpec cs co text) ∧
    chunkText 10 2 "ABCDEFGHIJKLMNOPQR".toList = some
      [⟨"ABCDEFGHIJ".toList, 0, 0, 10⟩,
       ⟨"IJKLMNOPQR".toList, 1, 8, 18⟩,
       ⟨"QR".toList, 2, 16, 18⟩] :=
  ⟨chunkText_eq_spec cs co text hco, by decide⟩

/-- Witness for C3 at the S1 scenario input. -/
theorem c3_sliding_window_witness :
    chunkText 10 2 "ABCDEFGHIJKLMNOPQR".toList =
      some (chunkTextSpec 10 2 "ABCDEFGHIJKLMNOPQR".toList) ∧
    chunkText 10 2 "ABCDEFGHIJKLMNOPQR".toList = some
      [⟨"ABCDEFGHIJ".toList, 0, 0, 10⟩,
       ⟨"IJKLMNOPQR".toList, 1, 8, 18⟩,
       ⟨"QR".toList, 2, 16, 18⟩] :=
  c3_sliding_window 10 2 "ABCDEFGHIJKLMNOPQR".toList (by decide)

/-- Counterexample to C4: with `chunk_size = 10`, `chunk_overlap = 5` and
the 12-character text `"ABCDEFGHIJKL"`, the chunks are `"ABCDEFGHIJ"`,
`"FGHIJKL"`, `"KL"`; removing the last 5 characters from every chunk but
the last and concatenating yields `"ABCDEFGKL"`, not the original text —
the middle chunk is shorter than `chunk_size`, so dropping `chunk_overlap`
characters from its end loses the characters `"HIJ"`. -/
theorem c4_counterexample :
    (chunkText 10 5 "ABCDEFGHIJKL".toList).map
        (fun l => reassembleDropOverlap 5 (l.map Chunk.text)) =
      some "ABCDEFGKL".toList ∧
    "ABCDEFGKL".toList ≠ "ABCDEFGHIJKL".toList := by
  exact ⟨by decide, by decide⟩

/-- C4 as amended: concatenating the chunks in `frame_number` order after
keeping only the first `chunk_size − chunk_overlap` characters of every
chunk except the last (for full-length chunks this coincides with removing
the last `chunk_overlap` characters) reproduces the text exactly, for every
text and every configuration with `chunk_overlap < chunk_size`. -/
theorem c4_reassembly (cs co : Nat) (text : List Char)
    (chunks : List Chunk) (hco : co < cs)
    (hch : chunkText cs co text = some chunks) :
    reassembleTake (cs - co) (chunks.map Chunk.text) = text := by
  have := chunkTextAux_reassemble cs co text hco (text.length + 1) 0 0
    chunks hch
  simpa using this

/-- Witness for the amended C4 at the S1 scenario input. -/
theorem c4_reassembly_witness :
    reassembleTake (10 - 2)
      ([(⟨"ABCDEFGHIJ".toList, 0, 0, 10⟩ : Chunk),
        ⟨"IJKLMNOPQR".toList, 1, 8, 18⟩,
        ⟨"QR".toList, 2, 16, 18⟩].map Chunk.text) =
      "ABCDEFGHIJKLMNOPQR".toList :=
  c4_reassembly 10 2 "ABCDEFGHIJKLMNOPQR".toList _ (by decide) (by decide)

/-! ## Claim C5 (`buildVideo` failure behaviour) -/

/-- Counterexample to C5: when ffmpeg fails after writing a partial file at
the output path, `buildVideo` surfaces the error and removes the scratch
directory, but the partial MP4 is NOT deleted — it remains at the output
path (there is no deletion of `outputVideoPath` anywhere in
`buildVideo`/`encodeVideo`). -/
theorem c5_counterexample :
    buildVideo ⟨false, "boom", true⟩ 3 ⟨false, 0, false, false⟩ =
      (Except.error ("FFmpeg error: " ++ "boom"),
       { tempDirExists := false, framesWritten := 0,
         outputDirExists := true, outputFileExists := true }) := by
  exact rfl

/-- C5 as amended: whenever the external encoder invocation fails, the
error is surfaced to the caller and the scratch frame directory is removed
(on the success path too), but any partial output file that the failed
invocation produced is left in place — nothing deletes it. -/
theorem c5_failure_behaviour (env : FfmpegOutcome) (nFrames : Nat)
    (fs : EncodeFS) :
    (buildVideo env nFrames fs).2.tempDirExists = false ∧
    (env.success = false →
      (buildVideo env nFrames fs).1 =
        Except.error ("FFmpeg error: " ++ env.errMessage) ∧
      (env.writesPartialOnFailure = true →
        (buildVideo env nFrames fs).2.outputFileExists = true)) := by
  unfold buildVideo encodeVideo
  by_cases hs : env.success
  · simp [hs]
  · simp [hs]
    intro hp
    exact Or.inr hp

/-- Witness for the amended C5: a failing encode that wrote a partial
output file. -/
theorem c5_failure_behaviour_witness :
    (buildVideo ⟨false, "boom", true⟩ 3
        ⟨false, 0, false, false⟩).2.tempDirExists = false ∧
    (buildVideo ⟨false, "boom", true⟩ 3 ⟨false, 0, false, false⟩).1 =
      Except.error ("FFmpeg error: " ++ "boom") ∧
    (buildVideo ⟨false, "boom", true⟩ 3
        ⟨false, 0, false, false⟩).2.outputFileExists = true :=
  ⟨(c5_failure_behaviour ⟨false, "boom", true⟩ 3
      ⟨false, 0, false, false⟩).1,
   ((c5_failure_behaviour ⟨false, "boom", true⟩ 3
      ⟨false, 0, false, false⟩).2 rfl).1,
   ((c5_failure_behaviour ⟨false, "boom", true⟩ 3
      ⟨false, 0, false, false⟩).2 rfl).2 rfl⟩

/-! ## Claim C9 (in-memory adapter, dimension mismatch) -/

/-- Both branches of a conditional between two `ok` values are `ok`. -/
lemma exists_ok_ite {α : Type} (b : Bool) (x y : α) :
    ∃ v, (if b = true then Except.ok x else Except.ok y) =
      (Except.ok v : Except String α) := by
  cases b
  · exact ⟨y, rfl⟩
  · exact ⟨x, rfl⟩

/-- `cosineSimilarity` cannot throw when the lengths agree. -/
lemma cosineSimilarity_ok (a b : List Float) (h : a.length = b.length) :
    ∃ v, cosineSimilarity a b = Except.ok v := by
  unfold cosineSimilarity
  rw [if_neg (by simp [h])]
  exact exists_ok_ite _ _ _

/-- `cosineSimilarity` throws exactly the length-mismatch error when the
lengths differ. -/
lemma cosineSimilarity_error (a b : List Float) (h : a.length ≠ b.length) :
    cosineSimilarity a b = Except.error "Vectors must have same length" := by
  unfold cosineSimilarity
  rw [if_pos h]

/-- The scoring map propagates the length-mismatch throw whenever any entry
of the store has an embedding whose length differs from the query's. -/
lemma scoreAll_error (q : List Float) :
    ∀ store : List IndexEntry,
      (∃ e ∈ store, e.embedding.length ≠ q.length) →
      scoreAll q store = Except.error "Vectors must have same length" := by
  intro store
  induction store with
  | nil => simp
  | cons e rest ih =>
    intro hex
    by_cases hlen : q.length = e.embedding.length
    · obtain ⟨v, hv⟩ := cosineSimilarity_ok q e.embedding hlen
      have htail : ∃ x ∈ rest, x.embedding.length ≠ q.length := by
        rcases hex with ⟨x, hx, hxne⟩
        rcases List.mem_cons.mp hx with hxe | hxr
        · exact absurd hlen.symm (hxe ▸ hxne)
        · exact ⟨x, hxr, hxne⟩
      simp [scoreAll, hv, ih htail]
    · have herr := cosineSimilarity_error q e.embedding hlen
      simp [scoreAll, herr]

/-- C9: if the store holds at least one entry whose embedding length
differs from the query's, the in-memory adapter's `search` throws
`'Vectors must have same length'` (it neither returns results nor scores
the mismatched entry as 0), while `upsert` is a plain append that performs
no dimension check whatsoever. -/
theorem c9_dimension_mismatch_throw (store : List IndexEntry)
    (q : List Float) (limit : Nat) (hne : store ≠ [])
    (hmis : ∃ e ∈ store, e.embedding.length ≠ q.length) :
    imSearch store q limit = Except.error "Vectors must have same length" ∧
    ∀ entries, imUpsert store entries = store ++ entries := by
  constructor
  · unfold imSearch
    rw [if_neg (by simpa using hne), scoreAll_error q store hmis]
  · intro entries
    rfl

/-- Witness for C9: one stored entry of dimension 1, query of dimension 0;
search throws and upsert still appends a second mismatched entry. -/
theorem c9_dimension_mismatch_throw_witness :
    imSearch [⟨[], [0.0], 0, "d", none⟩] [] 5 =
      Except.error "Vectors must have same length" ∧
    imUpsert [⟨[], [0.0], 0, "d", none⟩] [⟨[], [0.5, 0.5], 1, "d", none⟩] =
      [⟨[], [0.0], 0, "d", none⟩] ++ [⟨[], [0.5, 0.5], 1, "d", none⟩] :=
  ⟨(c9_dimension_mismatch_throw [⟨[], [0.0], 0, "d", none⟩] [] 5
      (by simp)
      ⟨⟨[], [0.0], 0, "d", none⟩, List.mem_singleton.mpr rfl, by simp⟩).1,
   (c9_dimension_mismatch_throw [⟨[], [0.0], 0, "d", none⟩] [] 5
      (by simp)
      ⟨⟨[], [0.0], 0, "d", none⟩, List.mem_singleton.mpr rfl, by simp⟩).2
     [⟨[], [0.5, 0.5], 1, "d", none⟩]⟩

/-! ## Claim C8 (frame cache bound and eviction order) -/

/-- `Map.set` grows the map by at most one entry. -/
lemma cacheSet_length_le (c : Cache) (k v : String) :
    (cacheSet c k v).length ≤ c.length + 1 := by
  unfold cacheSet
  split
  · simp
  · simp

/-- Counterexample to C8: with capacity 2, insert `a` then `b`, perform a
cache-hit lookup of `a` (which mutates nothing — `Map.get` does not update
recency), then insert `c`.  Under LRU-where-a-hit-counts-as-a-use the
least-recently-used entry is `b`, so `b` would be evicted and `a` kept;
the code instead deletes the first key in insertion order and evicts `a`,
keeping `b`. -/
theorem c8_counterexample :
    cacheGet (addToCache 2 (addToCache 2 [] "a" "1") "b" "2") "a" =
      some "1" ∧
    addToCache 2 (addToCache 2 (addToCache 2 [] "a" "1") "b" "2") "c" "3" =
      [("b", "2"), ("c", "3")] ∧
    cacheGet (addToCache 2 (addToCache 2 (addToCache 2 [] "a" "1") "b" "2")
        "c" "3") "a" = none ∧
    cacheGet (addToCache 2 (addToCache 2 (addToCache 2 [] "a" "1") "b" "2")
        "c" "3") "b" = some "2" := by
  exact ⟨rfl, rfl, rfl, rfl⟩

/-- C8 as amended: the frame cache is a bounded mapping from
`videoPath:frameNumber` to decoded text with capacity defaulting to 50;
for any capacity ≥ 1 an insertion never takes the size above the capacity,
and an insertion at capacity evicts the entry that was inserted earliest
(insertion-order FIFO) — lookups are pure and do not refresh recency. -/
theorem c8_bounded_fifo (maxSize : Nat) (c : Cache) (k v : String)
    (hmax : 1 ≤ maxSize) (hc : cacheSize c ≤ maxSize) :
    cacheSize (addToCache maxSize c k v) ≤ maxSize ∧
    (∀ p rest, c = p :: rest → maxSize ≤ cacheSize c →
      addToCache maxSize c k v = cacheSet rest k v) ∧
    retrieverMaxCacheSize none = 50 := by
  have hev : ∀ p rest, maxSize ≤ cacheSize (p :: rest) →
      addToCache maxSize (p :: rest) k v = cacheSet rest k v := by
    intro p rest hfull
    unfold addToCache
    rw [if_pos hfull]
    show cacheSet (List.eraseP (fun q => q.1 == p.1) (p :: rest)) k v =
      cacheSet rest k v
    rw [List.eraseP_cons_of_pos (l := rest) (by simp)]
  refine ⟨?_, ?_, rfl⟩
  · by_cases hfull : maxSize ≤ cacheSize c
    · cases c with
      | nil => simp [cacheSize] at hfull; omega
      | cons p rest =>
        rw [hev p rest hfull]
        have := cacheSet_length_le rest k v
        simp only [cacheSize, List.length_cons] at hc hfull ⊢
        omega
    · have hnc : addToCache maxSize c k v = cacheSet c k v := by
        unfold addToCache
        rw [if_neg hfull]
      rw [hnc]
      have := cacheSet_length_le c k v
      simp only [cacheSize] at hfull ⊢
      omega
  · intro p rest hcons hfull
    subst hcons
    exact hev p rest hfull

/-- Witness for the amended C8: capacity 1, one resident entry; inserting a
new key stays within the bound and evicts the resident (first-inserted)
entry. -/
theorem c8_bounded_fifo_witness :
    cacheSize (addToCache 1 [("x", "0")] "y" "1") ≤ 1 ∧
    addToCache 1 [("x", "0")] "y" "1" = cacheSet [] "y" "1" ∧
    retrieverMaxCacheSize none = 50 :=
  ⟨(c8_bounded_fifo 1 [("x", "0")] "y" "1" (by decide) (by decide)).1,
   (c8_bounded_fifo 1 [("x", "0")] "y" "1" (by decide)
      (by decide)).2.1 ("x", "0") [] rfl (by decide),
   (c8_bounded_fifo 1 [("x", "0")] "y" "1" (by decide) (by decide)).2.2⟩

/-! ## Retriever lemmas -/

/-- Mapping a function over an `Except` value preserves whether it is
`ok`. -/
lemma except_isOk_map {ε α β : Type} (f : α → β) (r : Except ε α) :
    (r.map f).isOk = r.isOk := by
  cases r
  · rfl
  · rfl

/-- When every hit's cache key holds a truthy cached string, the per-hit
loop serves everything from the cache and succeeds. -/
lemma searchLoop_ok_of_all_cached (env : RetrieverEnv) :
    ∀ (hits : List IndexEntry) (cache : Cache),
      (∀ e ∈ hits,
        truthyOpt (cacheGet cache (cacheKey env e.frameNumber)) = true) →
      (searchLoop env hits cache).1.isOk = true := by
  intro hits
  induction hits with
  | nil => intro cache _; rfl
  | cons chunk rest ih =>
    intro cache h
    have hhead := h chunk (List.mem_cons_self chunk rest)
    simp only [searchLoop, hhead, if_pos]
    rw [except_isOk_map]
    exact ih cache (fun e he => h e (List.mem_cons_of_mem chunk he))

/-- When the video file is missing, the loop throws `Video file not found`
at the first hit that is not truthy-cached. -/
lemma searchLoop_error_of_uncached (env : RetrieverEnv)
    (hvid : env.videoExists = false) :
    ∀ (hits : List IndexEntry) (cache : Cache),
      (∃ e ∈ hits,
        truthyOpt (cacheGet cache (cacheKey env e.frameNumber)) = false) →
      (searchLoop env hits cache).1 =
        Except.error ("Video file not found: " ++ env.videoPath) := by
  intro hits
  induction hits with
  | nil =>
    intro cache h
    simp at h
  | cons chunk rest ih =>
    intro cache h
    by_cases hhead :
        truthyOpt (cacheGet cache (cacheKey env chunk.frameNumber)) = true
    · have htail : ∃ e ∈ rest,
          truthyOpt (cacheGet cache (cacheKey env e.frameNumber)) = false := by
        rcases h with ⟨e, he, hef⟩
        rcases List.mem_cons.mp he with he' | hr
        · rw [he'] at hef
          rw [hhead] at hef
          cases hef
        · exact ⟨e, hr, hef⟩
      simp only [searchLoop, hhead, if_pos]
      rw [ih cache htail]
      rfl
    · rw [Bool.not_eq_true] at hhead
      simp [searchLoop, hhead, hvid]

/-- When the video exists, the loop never throws, whatever each hit's
extraction and decoding do. -/
lemma searchLoop_isOk (env : RetrieverEnv) (hvid : env.videoExists = true) :
    ∀ (hits : List IndexEntry) (cache : Cache),
      (searchLoop env hits cache).1.isOk = true := by
  intro hits
  induction hits with
  | nil => intro cache; rfl
  | cons chunk rest ih =>
    intro cache
    by_cases hhead :
        truthyOpt (cacheGet cache (cacheKey env chunk.frameNumber)) = true
    · simp only [searchLoop, hhead, if_pos]
      rw [except_isOk_map]
      exact ih cache
    · rw [Bool.not_eq_true] at hhead
      cases hext : env.extract chunk.frameNumber with
      | none =>
        simp [searchLoop, hhead, hvid, hext]
        exact ih cache
      | some buf =>
        by_cases hd : truthyOpt (env.decode buf) = true
        · simp [searchLoop, hhead, hvid, hext, hd, except_isOk_map]
          exact ih _
        · rw [Bool.not_eq_true] at hd
          simp [searchLoop, hhead, hvid, hext, hd]
          exact ih cache

/-- A hit whose frame is not cached and whose extraction fails, or whose
decode result is falsy (`null` or the empty string), is skipped: the
outcome and final cache for `chunk :: rest` are those for `rest` alone. -/
lemma searchLoop_skip (env : RetrieverEnv) (hvid : env.videoExists = true)
    (chunk : IndexEntry) (rest : List IndexEntry) (cache : Cache)
    (hmiss : truthyOpt (cacheGet cache (cacheKey env chunk.frameNumber)) =
      false)
    (hfail : env.extract chunk.frameNumber = none ∨
      ∃ buf, env.extract chunk.frameNumber = some buf ∧
        truthyOpt (env.decode buf) = false) :
    (searchLoop env (chunk :: rest) cache).1 =
      (searchLoop env rest cache).1 ∧
    (searchLoop env (chunk :: rest) cache).2.1 =
      (searchLoop env rest cache).2.1 := by
  rcases hfail with hext | ⟨buf, hext, hdec⟩
  · simp [searchLoop, hmiss, hvid, hext]
  · simp [searchLoop, hmiss, hvid, hext, hdec]

/-- A hit whose cache key is not truthy-cached triggers a frame extraction
(when the video exists): the first recorded event for it is
`extractFrame`. -/
lemma searchLoop_extracts_on_miss (env : RetrieverEnv)
    (hvid : env.videoExists = true)
    (chunk : IndexEntry) (rest : List IndexEntry) (cache : Cache)
    (hmiss : truthyOpt (cacheGet cache (cacheKey env chunk.frameNumber)) =
      false) :
    (searchLoop env (chunk :: rest) cache).2.2.head? =
      some (RetEvent.extractFrame chunk.frameNumber) := by
  cases hext : env.extract chunk.frameNumber with
  | none => simp [searchLoop, hmiss, hvid, hext]
  | some buf =>
    by_cases hd : truthyOpt (env.decode buf) = true
    · simp [searchLoop, hmiss, hvid, hext, hd]
    · rw [Bool.not_eq_true] at hd
      simp [searchLoop, hmiss, hvid, hext, hd]

/-! ## Claims C6, C7, C10 -/

/-- Counterexample to C6: with the video file missing but the single hit's
frame already cached, `search` returns results and raises no error at all;
and even with a cold cache, where it does raise `Video file not found`, the
query has already been embedded and the index already searched (both events
are in the trace).  So the error is not raised "before any work begins",
nor "regardless of the state of the frame cache". -/
theorem c6_counterexample :
    (searchModel
      ⟨"v.mp4", false, [⟨[], [], 0, "d", none⟩],
        fun _ => none, fun _ => none, 50⟩
      [("v.mp4:0", "hello")]).1.isOk = true ∧
    (searchModel
      ⟨"v.mp4", false, [⟨[], [], 0, "d", none⟩],
        fun _ => none, fun _ => none, 50⟩
      [("v.mp4:0", "hello")]).2.2 =
      [RetEvent.embedQuery, RetEvent.dbSearch] ∧
    (searchModel
      ⟨"v.mp4", false, [⟨[], [], 0, "d", none⟩],
        fun _ => none, fun _ => none, 50⟩ []).1 =
      Except.error ("Video file not found: " ++ "v.mp4") ∧
    (searchModel
      ⟨"v.mp4", false, [⟨[], [], 0, "d", none⟩],
        fun _ => none, fun _ => none, 50⟩ []).2.2 =
      [RetEvent.embedQuery, RetEvent.dbSearch] := by
  exact ⟨rfl, rfl, rfl, rfl⟩

/-- C6 as amended: when the MP4 at `video_path` does not exist, `search`
first embeds the query and searches the index unconditionally (the trace
always begins with those two events); it then raises `Video file not found`
only upon reaching a hit whose frame is not truthy-cached — if every hit is
served from the cache the search succeeds and no error is raised at all. -/
theorem c6_video_check_is_lazy (env : RetrieverEnv) (cache : Cache)
    (hvid : env.videoExists = false) :
    (searchModel env cache).2.2 =
      RetEvent.embedQuery :: RetEvent.dbSearch ::
        (searchLoop env env.hits cache).2.2 ∧
    ((∀ e ∈ env.hits,
        truthyOpt (cacheGet cache (cacheKey env e.frameNumber)) = true) →
      (searchModel env cache).1.isOk = true) ∧
    ((∃ e ∈ env.hits,
        truthyOpt (cacheGet cache (cacheKey env e.frameNumber)) = false) →
      (searchModel env cache).1 =
        Except.error ("Video file not found: " ++ env.videoPath)) := by
  refine ⟨rfl, ?_, ?_⟩
  · intro hall
    exact searchLoop_ok_of_all_cached env env.hits cache hall
  · intro hex
    exact searchLoop_error_of_uncached env hvid env.hits cache hex

/-- Witness for the amended C6: a missing video with one cached hit (search
succeeds) and, with an empty cache, the lazily raised error. -/
theorem c6_video_check_is_lazy_witness :
    (searchModel
      ⟨"v.mp4", false, [⟨[], [], 0, "d", none⟩],
        fun _ => none, fun _ => none, 50⟩
      [("v.mp4:0", "hello")]).1.isOk = true ∧
    (searchModel
      ⟨"v.mp4", false, [⟨[], [], 0, "d", none⟩],
        fun _ => none, fun _ => none, 50⟩ []).1 =
      Except.error ("Video file not found: " ++ "v.mp4") :=
  ⟨(c6_video_check_is_lazy
      ⟨"v.mp4", false, [⟨[], [], 0, "d", none⟩],
        fun _ => none, fun _ => none, 50⟩
      [("v.mp4:0", "hello")] rfl).2.1 (by decide),
   (c6_video_check_is_lazy
      ⟨"v.mp4", false, [⟨[], [], 0, "d", none⟩],
        fun _ => none, fun _ => none, 50⟩ [] rfl).2.2
     ⟨⟨[], [], 0, "d", none⟩, List.mem_singleton.mpr rfl, rfl⟩⟩

/-- C7: over an existing video, a per-hit extraction failure (`null`
buffer) or decode failure (falsy decode result) never makes `search`
throw — the loop's outcome is `ok` for every hit list and cache — and such
a hit is skipped: dropping it changes neither the outcome nor the final
cache, so all remaining hits are still processed and returned. -/
theorem c7_per_frame_failures_skipped (env : RetrieverEnv)
    (hvid : env.videoExists = true) :
    (∀ (hits : List IndexEntry) (cache : Cache),
      (searchLoop env hits cache).1.isOk = true) ∧
    (∀ (chunk : IndexEntry) (rest : List IndexEntry) (cache : Cache),
      truthyOpt (cacheGet cache (cacheKey env chunk.frameNumber)) = false →
      (env.extract chunk.frameNumber = none ∨
        ∃ buf, env.extract chunk.frameNumber = some buf ∧
          truthyOpt (env.decode buf) = false) →
      (searchLoop env (chunk :: rest) cache).1 =
        (searchLoop env rest cache).1 ∧
      (searchLoop env (chunk :: rest) cache).2.1 =
        (searchLoop env rest cache).2.1) := by
  refine ⟨searchLoop_isOk env hvid, ?_⟩
  intro chunk rest cache hmiss hfail
  exact searchLoop_skip env hvid chunk rest cache hmiss hfail

/-- Witness for C7: an existing video whose frame extraction always fails;
search over one hit succeeds, and the failing hit is skipped with the rest
(here none) processed as if it were absent. -/
theorem c7_per_frame_failures_skipped_witness :
    (searchLoop
      ⟨"v.mp4", true, [⟨[], [], 0, "d", none⟩],
        fun _ => none, fun _ => none, 50⟩
      [⟨[], [], 0, "d", none⟩] []).1.isOk = true ∧
    (searchLoop
      ⟨"v.mp4", true, [⟨[], [], 0, "d", none⟩],
        fun _ => none, fun _ => none, 50⟩
      [⟨[], [], 0, "d", none⟩] []).1 =
      (searchLoop
        ⟨"v.mp4", true, [⟨[], [], 0, "d", none⟩],
          fun _ => none, fun _ => none, 50⟩ [] []).1 ∧
    (searchLoop
      ⟨"v.mp4", true, [⟨[], [], 0, "d", none⟩],
        fun _ => none, fun _ => none, 50⟩
      [⟨[], [], 0, "d", none⟩] []).2.1 =
      (searchLoop
        ⟨"v.mp4", true, [⟨[], [], 0, "d", none⟩],
          fun _ => none, fun _ => none, 50⟩ [] []).2.1 :=
  ⟨(c7_per_frame_failures_skipped
      ⟨"v.mp4", true, [⟨[], [], 0, "d", none⟩],
        fun _ => none, fun _ => none, 50⟩ rfl).1
     [⟨[], [], 0, "d", none⟩] [],
   ((c7_per_frame_failures_skipped
      ⟨"v.mp4", true, [⟨[], [], 0, "d", none⟩],
        fun _ => none, fun _ => none, 50⟩ rfl).2
     ⟨[], [], 0, "d", none⟩ [] [] rfl (Or.inl rfl)).1,
   ((c7_per_frame_failures_skipped
      ⟨"v.mp4", true, [⟨[], [], 0, "d", none⟩],
        fun _ => none, fun _ => none, 50⟩ rfl).2
     ⟨[], [], 0, "d", none⟩ [] [] rfl (Or.inl rfl)).2⟩

/-- C10: the empty string is treated exactly like a decode failure, because
both the cache-hit test and the decode-success test are JS truthiness
(`if (!decodedText)`): in `search`, a hit decoding to `""` is dropped and
nothing is cached (outcome and cache are those without the hit); a cached
`""` is not treated as a cache hit — the hit proceeds to frame extraction;
in `getFrameByNumber`, a cached `""` likewise triggers extraction, and a
decode producing `""` is returned without ever being cached (the cache is
unchanged), so `""` — falsy, like `null` — never enters the cache. -/
theorem c10_empty_string_is_failure (env : RetrieverEnv) (cache : Cache)
    (chunk : IndexEntry) (rest : List IndexEntry) (n buf : Nat)
    (hvid : env.videoExists = true) :
    (truthyOpt (cacheGet cache (cacheKey env chunk.frameNumber)) = false →
      env.extract chunk.frameNumber = some buf →
      env.decode buf = some "" →
      (searchLoop env (chunk :: rest) cache).1 =
        (searchLoop env rest cache).1 ∧
      (searchLoop env (chunk :: rest) cache).2.1 =
        (searchLoop env rest cache).2.1) ∧
    (cacheGet cache (cacheKey env chunk.frameNumber) = some "" →
      (searchLoop env (chunk :: rest) cache).2.2.head? =
        some (RetEvent.extractFrame chunk.frameNumber)) ∧
    (truthyOpt (cacheGet cache (cacheKey env n)) = false →
      env.extract n = some buf →
      env.decode buf = some "" →
      getFrameByNumber env cache n =
        (Except.ok (some ""), cache,
         [RetEvent.extractFrame n, RetEvent.decodeFrame n])) ∧
    (cacheGet cache (cacheKey env n) = some "" →
      (getFrameByNumber env cache n).2.2.head? =
        some (RetEvent.extractFrame n)) := by
  refine ⟨?_, ?_, ?_, ?_⟩
  · intro hmiss hext hdec
    exact searchLoop_skip env hvid chunk rest cache hmiss
      (Or.inr ⟨buf, hext, by simp [hdec, truthyOpt]⟩)
  · intro hcached
    exact searchLoop_extracts_on_miss env hvid chunk rest cache
      (by simp [hcached, truthyOpt])
  · intro hmiss hext hdec
    unfold getFrameByNumber
    dsimp only
    rw [hmiss]
    simp [hvid, hext, hdec, truthyOpt]
  · intro hcached
    unfold getFrameByNumber
    have hmiss : truthyOpt (cacheGet cache (cacheKey env n)) = false := by
      simp [hcached, truthyOpt]
    cases hext : env.extract n with
    | none => simp [hmiss, hvid, hext]
    | some b =>
      by_cases hd : truthyOpt (env.decode b) = true
      · simp [hmiss, hvid, hext, hd]
      · rw [Bool.not_eq_true] at hd
        simp [hmiss, hvid, hext, hd]

/-- Witness for C10: a concrete environment whose single frame decodes to
the empty string, and a cache holding `""` for that frame. -/
theorem c10_empty_string_is_failure_witness :
    ((searchLoop
      ⟨"v.mp4", true, [⟨[], [], 0, "d", none⟩],
        fun _ => some 7, fun _ => some "", 50⟩
      [⟨[], [], 0, "d", none⟩] []).1 =
      (searchLoop
        ⟨"v.mp4", true, [⟨[], [], 0, "d", none⟩],
          fun _ => some 7, fun _ => some "", 50⟩ [] []).1 ∧
     (searchLoop
      ⟨"v.mp4", true, [⟨[], [], 0, "d", none⟩],
        fun _ => some 7, fun _ => some "", 50⟩
      [⟨[], [], 0, "d", none⟩] []).2.1 =
      (searchLoop
        ⟨"v.mp4", true, [⟨[], [], 0, "d", none⟩],
          fun _ => some 7, fun _ => some "", 50⟩ [] []).2.1) ∧
    (searchLoop
      ⟨"v.mp4", true, [⟨[], [], 0, "d", none⟩],
        fun _ => some 7, fun _ => some "", 50⟩
      [⟨[], [], 0, "d", none⟩] [("v.mp4:0", "")]).2.2.head? =
      some (RetEvent.extractFrame 0) ∧
    getFrameByNumber
      ⟨"v.mp4", true, [⟨[], [], 0, "d", none⟩],
        fun _ => some 7, fun _ => some "", 50⟩ [] 0 =
      (Except.ok (some ""), [],
       [RetEvent.extractFrame 0, RetEvent.decodeFrame 0]) ∧
    (getFrameByNumber
      ⟨"v.mp4", true, [⟨[], [], 0, "d", none⟩],
        fun _ => some 7, fun _ => some "", 50⟩ [("v.mp4:0", "")] 0).2.2.head? =
      some (RetEvent.extractFrame 0) :=
  ⟨(c10_empty_string_is_failure
      ⟨"v.mp4", true, [⟨[], [], 0, "d", none⟩],
        fun _ => some 7, fun _ => some "", 50⟩ []
      ⟨[], [], 0, "d", none⟩ [] 0 7 rfl).1 rfl rfl rfl,
   (c10_empty_string_is_failure
      ⟨"v.mp4", true, [⟨[], [], 0, "d", none⟩],
        fun _ => some 7, fun _ => some "", 50⟩ [("v.mp4:0", "")]
      ⟨[], [], 0, "d", none⟩ [] 0 7 rfl).2.1 (by decide),
   (c10_empty_string_is_failure
      ⟨"v.mp4", true, [⟨[], [], 0, "d", none⟩],
        fun _ => some 7, fun _ => some "", 50⟩ []
      ⟨[], [], 0, "d", none⟩ [] 0 7 rfl).2.2.1 rfl rfl rfl,
   (c10_empty_string_is_failure
      ⟨"v.mp4", true, [⟨[], [], 0, "d", none⟩],
        fun _ => some 7, fun _ => some "", 50⟩ [("v.mp4:0", "")]
      ⟨[], [], 0, "d", none⟩ [] 0 7 rfl).2.2.2 (by decide)⟩

end QRVideoRAG
